import Mathlib

/-!
Verification of the URL-shortening service core (server.js): shortening,
resolution/redirect, click accounting, stats and listing handlers, embedded
shallowly as pure Lean functions over explicit request inputs and an explicit
store state (a list of URL records).
-/

/-- The persistent URL record (table `urls`): short code, original URL,
owner (nullable), click counter, creation timestamp. -/
structure UrlRecord where
  short_code : String
  original_url : String
  user_id : Option String
  clicks : Nat
  created_at : Nat
deriving Repr, DecidableEq

/-- The store is the list of rows of the `urls` table. -/
abbrev Store := List UrlRecord

/-- HTTP responses the handlers can produce. -/
inductive Response where
  | status (code : Nat)
  | redirect (location : String)
  | jsonError (code : Nat) (message : String)
  | shortenOk (shortCode shortUrl originalUrl : String)
  | statsOk (record : UrlRecord) (shortUrl : String)
  | urlList (records : List (UrlRecord × String))
deriving Repr, DecidableEq

/-- Store operations issued by the redirect handler. -/
inductive StoreOp where
  | queryUrls (code : String)
  | rpcIncrement (code : String)
  | updateClicks (code : String) (value : Nat)
deriving Repr, DecidableEq

/-- Events of a redirect-handler run: either a store operation or the
emission of an HTTP response, in program order. -/
inductive Ev where
  | store (op : StoreOp)
  | respond (r : Response)
deriving Repr, DecidableEq

/-- Outcomes of the external calls made by the redirect handler, which the
embedding takes as inputs: the result of the single-row lookup, and whether
the rpc increment and the direct update fail. -/
structure RedirectEnv where
  lookup : Except Unit UrlRecord
  rpcFails : Bool
  updateFails : Bool
deriving Repr

/-- Click accounting (server.js lines 220-230): call the atomic rpc
`increment_clicks`; if it reports an error, issue a single direct update
setting `clicks` to the count captured at resolution time plus one. -/
def recordClick (shortCode : String) (knownClicks : Nat) (rpcFails : Bool) :
    List StoreOp :=
  StoreOp.rpcIncrement shortCode ::
    (if rpcFails then [StoreOp.updateClicks shortCode (knownClicks + 1)] else [])

/-- The redirect handler (server.js lines 200-236): bare 404 for
favicon.ico; otherwise look up the code, redirect to the error page when the
lookup fails, else redirect to the original URL and then run click
accounting. -/
def redirectHandler (shortCode : String) (env : RedirectEnv) : List Ev :=
  if shortCode == "favicon.ico" then [Ev.respond (Response.status 404)]
  else
    Ev.store (StoreOp.queryUrls shortCode) ::
      match env.lookup with
      | .error _ => [Ev.respond (Response.redirect "/?error=not_found")]
      | .ok data =>
          Ev.respond (Response.redirect data.original_url) ::
            (recordClick shortCode data.clicks env.rpcFails).map Ev.store

/-- Update the clicks field of every record with the given short code. -/
def setClicks (store : Store) (code : String) (g : Nat → Nat) : Store :=
  store.map fun r =>
    if r.short_code == code then { r with clicks := g r.clicks } else r

/-- The current click count stored for a code (0 when absent). -/
def clicksOf (store : Store) (code : String) : Nat :=
  match store.find? (fun r => r.short_code == code) with
  | some r => r.clicks
  | none => 0

/-- Effect of one store operation on the store, given which mutating calls
fail: reads leave the store alone, the rpc atomically increments, the direct
update overwrites the clicks value. -/
def applyStoreOp (env : RedirectEnv) (store : Store) : StoreOp → Store
  | .queryUrls _ => store
  | .rpcIncrement code =>
      if env.rpcFails then store else setClicks store code (· + 1)
  | .updateClicks code v =>
      if env.updateFails then store else setClicks store code (fun _ => v)

/-- Project the store operation out of an event. -/
def Ev.storeOp : Ev → Option StoreOp
  | .store op => some op
  | .respond _ => none

/-- Whether an event is a response emission. -/
def Ev.isRespond : Ev → Bool
  | .respond _ => true
  | .store _ => false

/-- Final store state after a redirect-handler run: fold the store
operations of the trace over the initial store. -/
def runRedirect (store : Store) (shortCode : String) (env : RedirectEnv) :
    Store :=
  ((redirectHandler shortCode env).filterMap Ev.storeOp).foldl
    (applyStoreOp env) store

/-- The default nanoid alphabet (nanoid package, `urlAlphabet`). -/
def urlAlphabet : String :=
  "useandom-26T198340PX75pxJACKVERYMINDBUSHWOLF_GQZbfghjklqvwyzrict"

/-- The nanoid generator: each output character is the alphabet entry at
the next random byte masked with 63 (`urlAlphabet[bytes[i] & 63]`), with the
random source embedded as an explicit byte stream. -/
def nanoid (size : Nat) (bytes : Nat → Nat) : String :=
  ⟨(List.range size).map fun i => urlAlphabet.data.getD (bytes i &&& 63) 'u'⟩

/-- URL-safe characters per the spec: letters, digits, hyphen, underscore. -/
def isUrlSafeChar (c : Char) : Bool :=
  c.isAlphanum || c == '-' || c == '_'

/-- Outcome of the insert issued by the shorten handler. -/
inductive InsertResult where
  | ok
  | uniqueViolation
  | otherError
deriving Repr, DecidableEq

/-- Events of a shorten-handler run: code generation, the store insert and
the emission of an HTTP response, in program order. -/
inductive ShortenEv where
  | genCode (code : String)
  | insert (original_url short_code : String) (user_id : Option String)
  | respond (r : Response)
deriving Repr, DecidableEq

/-- Whether a shorten event is the store insert. -/
def ShortenEv.isInsert : ShortenEv → Bool
  | .insert _ _ _ => true
  | _ => false

/-- Whether a shorten event is a code generation. -/
def ShortenEv.isGen : ShortenEv → Bool
  | .genCode _ => true
  | _ => false

/-- The shorten handler (server.js lines 84-128): reject with 400 before
any store interaction when the validator refuses the URL; otherwise generate
one code, attempt one insert, and answer 200 with the composed short URL on
success or 500 on any insert error (the handler throws and the catch block
answers 500; no retry). -/
def shortenHandler (isUri : String → Bool) (originalUrl : String)
    (generated : String) (baseUrl : String) (userId : Option String)
    (insertResult : InsertResult) : List ShortenEv :=
  if !(isUri originalUrl) then
    [ShortenEv.respond (Response.jsonError 400 "Invalid URL format")]
  else
    ShortenEv.genCode generated ::
      ShortenEv.insert originalUrl generated userId ::
        match insertResult with
        | .ok =>
            [ShortenEv.respond
              (Response.shortenOk generated (baseUrl ++ "/" ++ generated)
                originalUrl)]
        | _ =>
            [ShortenEv.respond (Response.jsonError 500
              "Failed to shorten URL. Database connection may be missing.")]

/-- Errors a single-row query can report in its result: the no-rows error
of `.single()` for an unknown code, or a backing-store failure. -/
inductive SbError where
  | noRows
  | transientFailure
deriving Repr, DecidableEq

/-- The stats handler (server.js lines 131-157): a query result carrying
any error, unknown code or store failure alike, is answered with 404; a row
is answered with 200 plus the composed short URL. -/
def statsHandler (shortCode baseUrl : String)
    (queryResult : Except SbError UrlRecord) : List Response :=
  match queryResult with
  | .error _ => [Response.jsonError 404 "URL not found"]
  | .ok data => [Response.statsOk data (baseUrl ++ "/" ++ data.short_code)]

/-- Newest-first order on records: a comes before b when the creation time
of b is at most that of a. -/
def byNewest (a b : UrlRecord) : Prop :=
  b.created_at ≤ a.created_at

instance : DecidableRel byNewest := fun a b =>
  inferInstanceAs (Decidable (b.created_at ≤ a.created_at))

instance : IsTotal UrlRecord byNewest :=
  ⟨fun a b => (Nat.le_total b.created_at a.created_at).elim Or.inl Or.inr⟩

instance : IsTrans UrlRecord byNewest :=
  ⟨fun _ _ _ h1 h2 => Nat.le_trans h2 h1⟩

/-- The listing query (server.js lines 173-178): rows whose user id equals
the authenticated user, ordered by creation time descending, limited to
50 rows. -/
def queryOwnerUrls (store : Store) (uid : String) : List UrlRecord :=
  (List.insertionSort byNewest
    (store.filter fun r => r.user_id == some uid)).take 50

/-- Events of a listing-handler run. -/
inductive ListEv where
  | authGetUser
  | queryUrls (uid : String)
  | respond (r : Response)
deriving Repr, DecidableEq

/-- The listing handler (server.js lines 160-197): resolve the user first;
unauthenticated callers get the empty list with no query of url records;
authenticated callers get their own records mapped with the composed short
URL, or 500 when the query fails. -/
def listHandler (authUser : Option String) (store : Store)
    (baseUrl : String) (queryFails : Bool) : List ListEv :=
  ListEv.authGetUser ::
    match authUser with
    | none => [ListEv.respond (Response.urlList [])]
    | some uid =>
        ListEv.queryUrls uid ::
          if queryFails then
            [ListEv.respond (Response.jsonError 500 "Server error")]
          else
            [ListEv.respond (Response.urlList
              ((queryOwnerUrls store uid).map fun u =>
                (u, baseUrl ++ "/" ++ u.short_code)))]

/-- The operations of the core that touch or read the store, as they can
interleave across concurrent requests: the shorten insert, the atomic rpc
increment, the read-modify-write fallback carrying the click count captured
at resolution time, and the pure reads. -/
inductive CoreOp where
  | insertRecord (r : UrlRecord)
  | atomicIncrement (code : String)
  | fallbackUpdate (code : String) (knownClicks : Nat)
  | resolveRead (code : String)
  | statsRead (code : String)
  | listRead (uid : Option String)
deriving Repr, DecidableEq

/-- Effect of one core operation on the store: the insert fails (store
unchanged) on a short-code collision, the rpc adds one to the current
counter, the fallback overwrites the counter with knownClicks + 1, reads
change nothing. -/
def applyCoreOp (store : Store) : CoreOp → Store
  | .insertRecord r =>
      if store.any (fun x => x.short_code == r.short_code) then store
      else store ++ [r]
  | .atomicIncrement code => setClicks store code (· + 1)
  | .fallbackUpdate code known => setClicks store code (fun _ => known + 1)
  | .resolveRead _ => store
  | .statsRead _ => store
  | .listRead _ => store

/-- Side condition under which the fallback cannot lower the counter: the
captured count is not stale by more than the one increment it re-applies. -/
def fallbackSafe (store : Store) : CoreOp → Prop
  | .fallbackUpdate c k => clicksOf store c ≤ k + 1
  | _ => True

/-- Whether a response carries a server-error (5xx) status. -/
def is5xx : Response → Bool
  | .status c => 500 ≤ c && c < 600
  | .jsonError c _ => 500 ≤ c && c < 600
  | _ => false

/-!
Helper lemmas.
-/

/-- Updating clicks rewrites the found record pointwise: the lookup result
after setClicks is the image of the lookup result before it. -/
theorem find?_setClicks (store : Store) (c : String) (g : Nat → Nat)
    (code : String) :
    (setClicks store c g).find? (fun r => r.short_code == code) =
      (store.find? (fun r => r.short_code == code)).map
        (fun r => if r.short_code == c then { r with clicks := g r.clicks }
          else r) := by
  unfold setClicks
  rw [List.find?_map]
  have hpred :
      ((fun r : UrlRecord => r.short_code == code) ∘
        (fun r => if r.short_code == c then { r with clicks := g r.clicks }
          else r)) =
        fun r : UrlRecord => r.short_code == code := by
    funext r
    by_cases h : r.short_code = c <;> simp [h]
  rw [hpred]

/-- Click count after setClicks at the updated code. -/
theorem clicksOf_setClicks_self (store : Store) (code : String)
    (g : Nat → Nat) :
    clicksOf (setClicks store code g) code =
      match store.find? (fun r => r.short_code == code) with
      | some r => g r.clicks
      | none => 0 := by
  unfold clicksOf
  rw [find?_setClicks]
  cases hfind : store.find? (fun r => r.short_code == code) with
  | none => rfl
  | some r =>
      have hr := List.find?_some hfind
      have hcode : r.short_code = code := by simpa using hr
      simp [hcode]

/-- Click count after setClicks at any other code. -/
theorem clicksOf_setClicks_other (store : Store) (c : String)
    (g : Nat → Nat) (code : String) (h : (code == c) = false) :
    clicksOf (setClicks store c g) code = clicksOf store code := by
  unfold clicksOf
  rw [find?_setClicks]
  cases hfind : store.find? (fun r => r.short_code == code) with
  | none => rfl
  | some r =>
      have hr := List.find?_some hfind
      have hcode : r.short_code = code := by simpa using hr
      have hrc : r.short_code ≠ c := by
        subst hcode
        simpa using h
      simp [hrc]

/-- Every character of the nanoid alphabet is a letter, a digit, a hyphen
or an underscore. -/
theorem urlAlphabet_safe : ∀ c ∈ urlAlphabet.data, isUrlSafeChar c = true := by
  decide

/-- Any character nanoid can emit is URL-safe. -/
theorem nanoid_char_safe (n : Nat) :
    isUrlSafeChar (urlAlphabet.data.getD n 'u') = true := by
  rw [List.getD_eq_getElem?_getD]
  cases h : urlAlphabet.data[n]? with
  | none => simp [Option.getD]; decide
  | some c =>
      have hc : c ∈ urlAlphabet.data := List.getElem?_mem h
      simpa using urlAlphabet_safe c hc

/-- A trace segment consisting only of store operations holds no response
emission. -/
theorem filter_isRespond_map_store (l : List StoreOp) :
    (l.map Ev.store).filter Ev.isRespond = [] := by
  induction l with
  | nil => rfl
  | cons a t ih => simpa [Ev.isRespond] using ih

/-- Every record the listing query returns belongs to the owner and comes
from the store. -/
theorem queryOwnerUrls_mem (store : Store) (uid : String) :
    ∀ r ∈ queryOwnerUrls store uid, r.user_id = some uid ∧ r ∈ store := by
  intro r hr
  have h1 : r ∈ List.insertionSort byNewest
      (store.filter fun x => x.user_id == some uid) :=
    List.take_subset 50 _ hr
  have h2 : r ∈ store.filter fun x => x.user_id == some uid :=
    (List.perm_insertionSort byNewest _).mem_iff.mp h1
  have h3 := List.mem_filter.mp h2
  exact ⟨by simpa using h3.2, h3.1⟩

/-- The listing query result is ordered newest-first. -/
theorem queryOwnerUrls_sorted (store : Store) (uid : String) :
    List.Sorted byNewest (queryOwnerUrls store uid) :=
  List.Pairwise.sublist (List.take_sublist 50 _)
    (List.sorted_insertionSort byNewest _)

/-- The listing query returns at most 50 records. -/
theorem queryOwnerUrls_length (store : Store) (uid : String) :
    (queryOwnerUrls store uid).length ≤ 50 :=
  List.length_take_le 50 _

/-!
Claim theorems.
-/

/-- C10: for the path parameter favicon.ico the redirect handler answers a
bare 404 at once, with no store lookup, no redirect of either kind and no
click increment attempt. -/
theorem favicon_bare_404 (env : RedirectEnv) :
    redirectHandler "favicon.ico" env = [Ev.respond (Response.status 404)] :=
  rfl

/-- C3: when the atomic rpc increment reports failure, click accounting
issues exactly one fallback read-modify-write, keyed by the short code,
writing the resolution-time count plus one, and no second attempt; when the
rpc succeeds, no fallback is issued at all. -/
theorem recordClick_single_fallback (code : String) (k : Nat) :
    recordClick code k true =
      [StoreOp.rpcIncrement code, StoreOp.updateClicks code (k + 1)] ∧
    recordClick code k false = [StoreOp.rpcIncrement code] :=
  ⟨rfl, rfl⟩

/-- C6: when the validator refuses the input string, the shorten handler
answers 400 Invalid URL format and its trace holds no code generation and
no insert — no store interaction at all. -/
theorem invalid_url_rejected_before_store (isUri : String → Bool)
    (u c b : String) (uid : Option String) (res : InsertResult)
    (hv : isUri u = false) :
    shortenHandler isUri u c b uid res =
      [ShortenEv.respond (Response.jsonError 400 "Invalid URL format")] := by
  simp [shortenHandler, hv]

/-- Witness for C6 at a concrete malformed input. -/
theorem invalid_url_rejected_before_store_witness :
    (fun _ : String => false) "not a url" = false ∧
    shortenHandler (fun _ => false) "not a url" "abc123"
        "http://localhost:3000" none InsertResult.ok =
      [ShortenEv.respond (Response.jsonError 400 "Invalid URL format")] :=
  ⟨rfl, invalid_url_rejected_before_store (fun _ => false) "not a url"
    "abc123" "http://localhost:3000" none InsertResult.ok rfl⟩

/-- C1 counterexample: a single unique violation makes the shorten handler
answer the 500 error at once — the trace holds exactly one code generation
and one insert attempt, so no fresh code is generated and no retry happens. -/
theorem shorten_no_retry_counterexample :
    shortenHandler (fun _ => true) "https://example.com" "abc123"
        "http://localhost:3000" none InsertResult.uniqueViolation =
      [ShortenEv.genCode "abc123",
       ShortenEv.insert "https://example.com" "abc123" none,
       ShortenEv.respond (Response.jsonError 500
         "Failed to shorten URL. Database connection may be missing.")] ∧
    (shortenHandler (fun _ => true) "https://example.com" "abc123"
        "http://localhost:3000" none InsertResult.uniqueViolation).countP
      ShortenEv.isInsert = 1 ∧
    (shortenHandler (fun _ => true) "https://example.com" "abc123"
        "http://localhost:3000" none InsertResult.uniqueViolation).countP
      ShortenEv.isGen = 1 := by
  decide

/-- C1 amended: the shorten handler never retries: on any insert error,
unique violation included, it generates one code, attempts one insert and
surfaces the 500 store error immediately. -/
theorem shorten_no_retry_on_insert_error (isUri : String → Bool)
    (u c b : String) (uid : Option String) (res : InsertResult)
    (hv : isUri u = true) (hres : res ≠ InsertResult.ok) :
    shortenHandler isUri u c b uid res =
      [ShortenEv.genCode c, ShortenEv.insert u c uid,
       ShortenEv.respond (Response.jsonError 500
         "Failed to shorten URL. Database connection may be missing.")] := by
  cases res with
  | ok => exact absurd rfl hres
  | uniqueViolation => simp [shortenHandler, hv]
  | otherError => simp [shortenHandler, hv]

/-- Witness for the amended C1 at a concrete collision. -/
theorem shorten_no_retry_on_insert_error_witness :
    (fun _ : String => true) "https://example.com" = true ∧
    InsertResult.uniqueViolation ≠ InsertResult.ok ∧
    shortenHandler (fun _ => true) "https://example.com" "abc123"
        "http://localhost:3000" none InsertResult.uniqueViolation =
      [ShortenEv.genCode "abc123",
       ShortenEv.insert "https://example.com" "abc123" none,
       ShortenEv.respond (Response.jsonError 500
         "Failed to shorten URL. Database connection may be missing.")] :=
  ⟨rfl, by decide,
    shorten_no_retry_on_insert_error (fun _ => true) "https://example.com"
      "abc123" "http://localhost:3000" none InsertResult.uniqueViolation rfl
      (by decide)⟩

/-- C7 counterexample: a backing-store failure reported in the stats query
result is answered with 404 URL not found — no 5xx response is emitted. -/
theorem stats_store_failure_counterexample :
    statsHandler "abc123" "http://localhost:3000"
        (Except.error SbError.transientFailure) =
      [Response.jsonError 404 "URL not found"] ∧
    ∀ r ∈ statsHandler "abc123" "http://localhost:3000"
        (Except.error SbError.transientFailure), is5xx r = false := by
  decide

/-- C7 amended: the stats handler answers 404 for every failed query
result, unknown code and backing-store failure alike; it does not
distinguish store failures with a 5xx status. -/
theorem stats_error_always_404 (code b : String) (e : SbError) :
    statsHandler code b (Except.error e) =
      [Response.jsonError 404 "URL not found"] :=
  rfl

/-- C4: for a resolved code the only response the redirect handler emits is
the redirect to the original URL, whatever the increment outcomes; and when
both the atomic rpc and the fallback update fail, the final store is
unchanged. -/
theorem redirect_unaffected_by_accounting (store : Store) (code : String)
    (env : RedirectEnv) (data : UrlRecord)
    (hlk : env.lookup = Except.ok data) (hcode : code ≠ "favicon.ico") :
    (redirectHandler code env).filter Ev.isRespond =
      [Ev.respond (Response.redirect data.original_url)] ∧
    (env.rpcFails = true → env.updateFails = true →
      runRedirect store code env = store) := by
  obtain ⟨lk, rf, uf⟩ := env
  simp only at hlk
  subst hlk
  constructor
  · simp [redirectHandler, hcode, Ev.isRespond, filter_isRespond_map_store]
  · intro h1 h2
    subst h1
    subst h2
    simp [runRedirect, redirectHandler, hcode, recordClick, Ev.storeOp,
      applyStoreOp]

/-- Witness for C4 at a concrete resolved code with both increments
failing. -/
theorem redirect_unaffected_by_accounting_witness :
    (RedirectEnv.mk
        (Except.ok ⟨"abc123", "https://example.com", none, 0, 0⟩) true
        true).lookup =
      Except.ok ⟨"abc123", "https://example.com", none, 0, 0⟩ ∧
    "abc123" ≠ "favicon.ico" ∧
    ((redirectHandler "abc123"
        (RedirectEnv.mk
          (Except.ok ⟨"abc123", "https://example.com", none, 0, 0⟩) true
          true)).filter Ev.isRespond =
      [Ev.respond (Response.redirect "https://example.com")] ∧
    (true = true → true = true →
      runRedirect [⟨"abc123", "https://example.com", none, 0, 0⟩] "abc123"
          (RedirectEnv.mk
            (Except.ok ⟨"abc123", "https://example.com", none, 0, 0⟩) true
            true) =
        [⟨"abc123", "https://example.com", none, 0, 0⟩])) :=
  ⟨rfl, by decide,
    redirect_unaffected_by_accounting
      [⟨"abc123", "https://example.com", none, 0, 0⟩] "abc123"
      (RedirectEnv.mk
        (Except.ok ⟨"abc123", "https://example.com", none, 0, 0⟩) true true)
      ⟨"abc123", "https://example.com", none, 0, 0⟩ rfl (by decide)⟩

/-- C5: for a resolved code the trace is exactly the lookup, then the
redirect response, then the click-accounting operations; every event after
the response is a store operation, so the response is issued before any
accounting work and is never awaited with it. -/
theorem redirect_before_accounting (code : String) (env : RedirectEnv)
    (data : UrlRecord) (hlk : env.lookup = Except.ok data)
    (hcode : code ≠ "favicon.ico") :
    redirectHandler code env =
      Ev.store (StoreOp.queryUrls code) ::
        Ev.respond (Response.redirect data.original_url) ::
          (recordClick code data.clicks env.rpcFails).map Ev.store ∧
    ∀ e ∈ (recordClick code data.clicks env.rpcFails).map Ev.store,
      e.isRespond = false := by
  constructor
  · obtain ⟨lk, rf, uf⟩ := env
    simp only at hlk
    subst hlk
    unfold redirectHandler
    rw [if_neg]
    simpa using hcode
  · intro e he
    obtain ⟨op, _, rfl⟩ := List.mem_map.mp he
    rfl

/-- Witness for C5 at a concrete resolved code. -/
theorem redirect_before_accounting_witness :
    (RedirectEnv.mk
        (Except.ok ⟨"abc123", "https://example.com", none, 3, 0⟩) true
        false).lookup =
      Except.ok ⟨"abc123", "https://example.com", none, 3, 0⟩ ∧
    "abc123" ≠ "favicon.ico" ∧
    (redirectHandler "abc123"
        (RedirectEnv.mk
          (Except.ok ⟨"abc123", "https://example.com", none, 3, 0⟩) true
          false) =
      Ev.store (StoreOp.queryUrls "abc123") ::
        Ev.respond (Response.redirect "https://example.com") ::
          (recordClick "abc123" 3 true).map Ev.store ∧
    ∀ e ∈ (recordClick "abc123" 3 true).map Ev.store,
      e.isRespond = false) :=
  ⟨rfl, by decide,
    redirect_before_accounting "abc123"
      (RedirectEnv.mk
        (Except.ok ⟨"abc123", "https://example.com", none, 3, 0⟩) true false)
      ⟨"abc123", "https://example.com", none, 3, 0⟩ rfl (by decide)⟩

/-- C8: for an accepted URL and a successful insert, the shorten handler
answers with the generated code and the short URL composed as the base URL,
a slash and the code; the nanoid code has length 6 and draws only on
letters, digits, hyphen and underscore. -/
theorem shorten_code_shape (isUri : String → Bool) (u b : String)
    (uid : Option String) (bytes : Nat → Nat) (hv : isUri u = true) :
    shortenHandler isUri u (nanoid 6 bytes) b uid InsertResult.ok =
      [ShortenEv.genCode (nanoid 6 bytes),
       ShortenEv.insert u (nanoid 6 bytes) uid,
       ShortenEv.respond (Response.shortenOk (nanoid 6 bytes)
         (b ++ "/" ++ nanoid 6 bytes) u)] ∧
    (nanoid 6 bytes).length = 6 ∧
    ∀ ch ∈ (nanoid 6 bytes).data, isUrlSafeChar ch = true := by
  refine ⟨?_, ?_, ?_⟩
  · unfold shortenHandler
    rw [hv]
    rfl
  · rfl
  · intro ch hch
    simp only [nanoid, List.mem_map] at hch
    obtain ⟨i, _, rfl⟩ := hch
    exact nanoid_char_safe _

/-- Witness for C8 at a concrete byte stream. -/
theorem shorten_code_shape_witness :
    (fun _ : String => true) "https://example.com" = true ∧
    (shortenHandler (fun _ => true) "https://example.com"
        (nanoid 6 fun _ => 0) "http://localhost:3000" none InsertResult.ok =
      [ShortenEv.genCode (nanoid 6 fun _ => 0),
       ShortenEv.insert "https://example.com" (nanoid 6 fun _ => 0) none,
       ShortenEv.respond (Response.shortenOk (nanoid 6 fun _ => 0)
         ("http://localhost:3000" ++ "/" ++ nanoid 6 fun _ => 0)
         "https://example.com")] ∧
    (nanoid 6 fun _ => 0).length = 6 ∧
    ∀ ch ∈ (nanoid 6 fun _ => 0).data, isUrlSafeChar ch = true) :=
  ⟨rfl, shorten_code_shape (fun _ => true) "https://example.com"
    "http://localhost:3000" none (fun _ => 0) rfl⟩

/-- C9: an unauthenticated call to the listing handler is answered with the
empty list and queries no url records; an authenticated call whose query
succeeds is answered with exactly the owner records of the store, ordered
newest-first and capped at 50, each paired with its composed short URL. -/
theorem listing_auth_scope (store : Store) (b : String) (qf : Bool)
    (uid : String) (hqf : qf = false) :
    listHandler none store b qf =
      [ListEv.authGetUser, ListEv.respond (Response.urlList [])] ∧
    listHandler (some uid) store b qf =
      [ListEv.authGetUser, ListEv.queryUrls uid,
       ListEv.respond (Response.urlList ((queryOwnerUrls store uid).map
         fun u => (u, b ++ "/" ++ u.short_code)))] ∧
    (∀ r ∈ queryOwnerUrls store uid, r.user_id = some uid ∧ r ∈ store) ∧
    List.Sorted byNewest (queryOwnerUrls store uid) ∧
    (queryOwnerUrls store uid).length ≤ 50 := by
  subst hqf
  exact ⟨rfl, rfl, queryOwnerUrls_mem store uid,
    queryOwnerUrls_sorted store uid, queryOwnerUrls_length store uid⟩

/-- Witness for C9 on a concrete two-owner store. -/
theorem listing_auth_scope_witness :
    false = false ∧
    (listHandler none
        [⟨"c1", "https://a.example", some "alice", 0, 5⟩,
         ⟨"c2", "https://b.example", some "bob", 0, 7⟩]
        "http://localhost:3000" false =
      [ListEv.authGetUser, ListEv.respond (Response.urlList [])] ∧
    listHandler (some "alice")
        [⟨"c1", "https://a.example", some "alice", 0, 5⟩,
         ⟨"c2", "https://b.example", some "bob", 0, 7⟩]
        "http://localhost:3000" false =
      [ListEv.authGetUser, ListEv.queryUrls "alice",
       ListEv.respond (Response.urlList ((queryOwnerUrls
         [⟨"c1", "https://a.example", some "alice", 0, 5⟩,
          ⟨"c2", "https://b.example", some "bob", 0, 7⟩] "alice").map
         fun u => (u, "http://localhost:3000" ++ "/" ++ u.short_code)))] ∧
    (∀ r ∈ queryOwnerUrls
        [⟨"c1", "https://a.example", some "alice", 0, 5⟩,
         ⟨"c2", "https://b.example", some "bob", 0, 7⟩] "alice",
      r.user_id = some "alice" ∧
        r ∈ [⟨"c1", "https://a.example", some "alice", 0, 5⟩,
             ⟨"c2", "https://b.example", some "bob", 0, 7⟩]) ∧
    List.Sorted byNewest (queryOwnerUrls
      [⟨"c1", "https://a.example", some "alice", 0, 5⟩,
       ⟨"c2", "https://b.example", some "bob", 0, 7⟩] "alice") ∧
    (queryOwnerUrls
      [⟨"c1", "https://a.example", some "alice", 0, 5⟩,
       ⟨"c2", "https://b.example", some "bob", 0, 7⟩] "alice").length ≤
      50) :=
  ⟨rfl, listing_auth_scope
    [⟨"c1", "https://a.example", some "alice", 0, 5⟩,
     ⟨"c2", "https://b.example", some "bob", 0, 7⟩]
    "http://localhost:3000" false "alice" rfl⟩

/-- C2 counterexample: with one record at two clicks, a fallback update
carrying a stale resolution-time count of zero lowers the stored counter
from two to one, so clicks can decrease under the read-modify-write
fallback with concurrent redirects. -/
theorem clicks_can_decrease_counterexample :
    clicksOf (applyCoreOp (applyCoreOp
        [⟨"abc123", "https://example.com", none, 0, 0⟩]
        (CoreOp.atomicIncrement "abc123")) (CoreOp.atomicIncrement "abc123"))
      "abc123" = 2 ∧
    clicksOf (applyCoreOp (applyCoreOp (applyCoreOp
        [⟨"abc123", "https://example.com", none, 0, 0⟩]
        (CoreOp.atomicIncrement "abc123")) (CoreOp.atomicIncrement "abc123"))
        (CoreOp.fallbackUpdate "abc123" 0)) "abc123" = 1 ∧
    (1 : Nat) < 2 := by
  decide

/-- C2 amended: the clicks counter never decreases under any core
operation except a fallback update whose captured count is stale; whenever
the operation is not such a stale fallback, the counter after the operation
is at least the counter before it. -/
theorem clicks_monotone_amended (store : Store) (op : CoreOp) (code : String)
    (hsafe : fallbackSafe store op) :
    clicksOf store code ≤ clicksOf (applyCoreOp store op) code := by
  cases op with
  | insertRecord r =>
      by_cases hdup : store.any (fun x => x.short_code == r.short_code)
      · simp [applyCoreOp, hdup]
      · have hstep : applyCoreOp store (CoreOp.insertRecord r) =
            store ++ [r] := by
          simp [applyCoreOp, hdup]
        rw [hstep]
        unfold clicksOf
        rw [List.find?_append]
        cases hfind : store.find? (fun x => x.short_code == code) with
        | some x => simp
        | none => simp
  | atomicIncrement c =>
      by_cases h : code = c
      · subst h
        have hstep : applyCoreOp store (CoreOp.atomicIncrement code) =
            setClicks store code (· + 1) := rfl
        rw [hstep, clicksOf_setClicks_self]
        unfold clicksOf
        cases hfind : store.find? (fun r => r.short_code == code) <;> simp
      · have hb : (code == c) = false := by simpa using h
        have hstep : applyCoreOp store (CoreOp.atomicIncrement c) =
            setClicks store c (· + 1) := rfl
        rw [hstep, clicksOf_setClicks_other store c _ code hb]
  | fallbackUpdate c k =>
      by_cases h : code = c
      · subst h
        have hstep : applyCoreOp store (CoreOp.fallbackUpdate code k) =
            setClicks store code (fun _ => k + 1) := rfl
        rw [hstep, clicksOf_setClicks_self]
        have hs : clicksOf store code ≤ k + 1 := hsafe
        revert hs
        unfold clicksOf
        cases hfind : store.find? (fun r => r.short_code == code) <;> simp
      · have hb : (code == c) = false := by simpa using h
        have hstep : applyCoreOp store (CoreOp.fallbackUpdate c k) =
            setClicks store c (fun _ => k + 1) := rfl
        rw [hstep, clicksOf_setClicks_other store c _ code hb]
  | resolveRead c => exact Nat.le_refl _
  | statsRead c => exact Nat.le_refl _
  | listRead u => exact Nat.le_refl _

/-- Witness for the amended C2: an atomic increment on a concrete store. -/
theorem clicks_monotone_amended_witness :
    fallbackSafe [⟨"xyz789", "https://example.org", none, 2, 0⟩]
      (CoreOp.atomicIncrement "xyz789") ∧
    clicksOf [⟨"xyz789", "https://example.org", none, 2, 0⟩] "xyz789" ≤
      clicksOf (applyCoreOp [⟨"xyz789", "https://example.org", none, 2, 0⟩]
        (CoreOp.atomicIncrement "xyz789")) "xyz789" :=
  ⟨trivial, clicks_monotone_amended
    [⟨"xyz789", "https://example.org", none, 2, 0⟩]
    (CoreOp.atomicIncrement "xyz789") "xyz789" trivial⟩
